import Mathlib

/-!
# CommercePulse data pipeline: a shallow embedding

This file embeds the normalization/aggregation core of the CommercePulse
pipeline (`src/transformer.py` and `src/quality_report.py`) in Lean and
proves properties of it.

Modelling conventions:
* Python floats are idealized as rationals (`ℚ`); the amounts occurring in
  the pipeline are decimal values for which float rounding is immaterial to
  the verified properties.
* JSON payload values are modelled by `Value` (null, string, or number);
  a payload is an association list of string keys to values.
* `pandas` DataFrames are modelled by `Frame ρ`: an explicit column-name
  list together with a list of typed rows.  `pd.DataFrame()` (the empty
  frame produced for empty input) has an empty column list.
* Timestamps are rationals; `pd.to_datetime(..., errors="coerce")` is
  modelled by `to_datetime`, which parses ISO `YYYY-MM-DD` strings to the
  number `y*10000 + m*100 + d` (a strictly monotone encoding of calendar
  dates), passes numbers through, and coerces everything unparsable to
  `none` (`NaT`).  The inputs of this pipeline carry date-resolution
  timestamps, so `.dt.date` is the identity on parsed values.
* `pandas.sort_values` is modelled by the stable `List.insertionSort`
  (extensionally, any stable sort; pandas' sort is stable on the tie
  patterns relevant here and the spec declares residual tie order
  arbitrary-but-deterministic).
* Python's `round(x, n)` is modelled by exact rational round-half-to-even.
* Exceptions (`float(...)` raising `ValueError`/`TypeError`,
  `.lower()` raising `AttributeError`, missing-column `KeyError`) are
  modelled by `Except String`.
-/

/-- A JSON-ish payload value: Python `None`, a string, or a number. -/
inductive Value where
  | none
  | str (s : String)
  | num (q : ℚ)
deriving DecidableEq, Repr

/-- A raw event document as stored in `events_raw`: the fields accessed by
the normalizers (`event.get("event_id")`, `"vendor"`, `"event_type"`,
`"payload"`). -/
structure RawEvent where
  event_id : Option String
  event_type : Option String
  vendor : Option String
  payload : List (String × Value)
deriving DecidableEq, Repr

instance {ε α : Type} [DecidableEq ε] [DecidableEq α] : DecidableEq (Except ε α) := fun x y =>
  match x, y with
  | .ok a, .ok b =>
    if h : a = b then isTrue (by rw [h]) else isFalse (fun he => by cases he; exact h rfl)
  | .error a, .error b =>
    if h : a = b then isTrue (by rw [h]) else isFalse (fun he => by cases he; exact h rfl)
  | .ok _, .error _ => isFalse (fun he => by cases he)
  | .error _, .ok _ => isFalse (fun he => by cases he)

/-- `payload.get(key)` without a default: first binding for `key`, if any. -/
def pget (p : List (String × Value)) (key : String) : Option Value :=
  (p.find? (fun kv => decide (kv.1 = key))).map (·.2)

/-- Python `payload.get(key)`: missing keys yield `None`. -/
def pyGet (p : List (String × Value)) (key : String) : Value :=
  (pget p key).getD Value.none

/-- Python `payload.get(key, d)`. -/
def pyGetD (p : List (String × Value)) (key : String) (d : Value) : Value :=
  (pget p key).getD d

/-- Python truthiness of a payload value. -/
def Value.truthy : Value → Bool
  | .none => false
  | .str s => decide (s ≠ "")
  | .num q => decide (q ≠ 0)

/-- Python `a or b`: `a` if truthy, else `b`. -/
def pyOr (a b : Value) : Value :=
  if a.truthy then a else b

/-- Numeric value of a digit list, `none` if any character is not a digit. -/
def digitsVal (cs : List Char) : Option ℕ :=
  cs.foldl
    (fun acc c =>
      match acc with
      | Option.none => Option.none
      | some n => if c.isDigit then some (n * 10 + (c.toNat - 48)) else Option.none)
    (some 0)

/-- The number that Python `float(s)` parses from the string `s`, or `none`
if `float` would raise `ValueError`.  Covers the plain decimal forms
(optional sign, digits, optional fractional part); scientific notation and
specials are outside the payload vocabulary of this pipeline. -/
def parseRat (s : String) : Option ℚ :=
  let cs := s.toList
  let signed : Bool × List Char :=
    match cs with
    | '-' :: rest => (true, rest)
    | '+' :: rest => (false, rest)
    | _ => (false, cs)
  let intPart := signed.2.takeWhile (fun c => decide (c ≠ '.'))
  let rest := signed.2.dropWhile (fun c => decide (c ≠ '.'))
  let frac : Option (List Char) :=
    match rest with
    | [] => some []
    | _ :: fs => some fs
  match frac with
  | Option.none => Option.none
  | some fs =>
    if intPart.isEmpty && fs.isEmpty then Option.none
    else
      match digitsVal intPart, digitsVal fs with
      | some n, some f =>
        let mag : ℚ := (n : ℚ) + (f : ℚ) / ((10 : ℚ) ^ fs.length)
        some (if signed.1 then -mag else mag)
      | _, _ => Option.none

/-- Python `float(v)`: numbers pass through, numeric strings are parsed,
anything else raises (`ValueError` for bad strings, `TypeError` for `None`). -/
def pyFloat (v : Value) : Except String ℚ :=
  match v with
  | .num q => .ok q
  | .str s =>
    match parseRat s with
    | some q => .ok q
    | Option.none => .error "ValueError"
  | .none => .error "TypeError"

/-- Parse an ISO `YYYY-MM-DD` date string to the monotone encoding
`y*10000 + m*100 + d`. -/
def parseDateStr (s : String) : Option ℚ :=
  match s.toList with
  | [y1, y2, y3, y4, '-', m1, m2, '-', d1, d2] =>
    if ([y1, y2, y3, y4, m1, m2, d1, d2].all Char.isDigit) then
      let y := (y1.toNat - 48) * 1000 + (y2.toNat - 48) * 100 + (y3.toNat - 48) * 10 +
        (y4.toNat - 48)
      let m := (m1.toNat - 48) * 10 + (m2.toNat - 48)
      let d := (d1.toNat - 48) * 10 + (d2.toNat - 48)
      if 1 ≤ m ∧ m ≤ 12 ∧ 1 ≤ d ∧ d ≤ 31 then
        some ((y * 10000 + m * 100 + d : ℕ) : ℚ)
      else Option.none
    else Option.none
  | _ => Option.none

/-- `pd.to_datetime(v, utc=True, errors="coerce")`: `None` and unparsable
strings coerce to `NaT` (`none`), never raising. -/
def to_datetime (v : Value) : Option ℚ :=
  match v with
  | .none => Option.none
  | .num q => some q
  | .str s => parseDateStr s

/-- Round-half-to-even to an integer (the rounding of Python `round`). -/
def roundHalfEven (q : ℚ) : ℤ :=
  let f := ⌊q⌋
  let r := q - (f : ℚ)
  if r < 1 / 2 then f
  else if r > 1 / 2 then f + 1
  else if f % 2 = 0 then f else f + 1

/-- Python `round(q, n)` on exact rationals. -/
def pyRound (q : ℚ) (n : ℕ) : ℚ :=
  (roundHalfEven (q * (10 : ℚ) ^ n) : ℚ) / (10 : ℚ) ^ n

/-- A pandas DataFrame with rows of type `ρ`: the column index plus row
content.  `pd.DataFrame()` is `⟨[], []⟩`. -/
structure Frame (ρ : Type) where
  cols : List String
  rows : List ρ
deriving DecidableEq, Repr

/-- A row of the canonical Orders table (`normalize_orders`). -/
structure OrderRow where
  order_id : Value
  customer_id : Value
  order_amount : ℚ
  order_status : Value
  created_at : Option ℚ
  event_id : Option String
  vendor : Option String
  event_type : Option String
deriving DecidableEq, Repr

/-- A row of the canonical Payments table (`normalize_payments`). -/
structure PaymentRow where
  payment_id : Value
  order_id : Value
  payment_amount : ℚ
  payment_status : Value
  payment_method : Value
  payment_date : Option ℚ
  event_id : Option String
  vendor : Option String
deriving DecidableEq, Repr

/-- A row of the canonical Refunds table (`normalize_refunds`). -/
structure RefundRow where
  refund_id : Value
  order_id : Value
  payment_id : Value
  refund_amount : ℚ
  refund_reason : Value
  refund_type : Value
  refund_date : Option ℚ
  event_id : Option String
  vendor : Option String
deriving DecidableEq, Repr

/-- Column schema of the canonical Orders table (dict-key insertion order
of the row literal in `normalize_orders`). -/
def orderCols : List String :=
  ["order_id", "customer_id", "order_amount", "order_status", "created_at",
    "event_id", "vendor", "event_type"]

/-- Column schema of the canonical Payments table. -/
def paymentCols : List String :=
  ["payment_id", "order_id", "payment_amount", "payment_status",
    "payment_method", "payment_date", "event_id", "vendor"]

/-- Column schema of the canonical Refunds table. -/
def refundCols : List String :=
  ["refund_id", "order_id", "payment_id", "refund_amount", "refund_reason",
    "refund_type", "refund_date", "event_id", "vendor"]

/-- The per-event row construction of `normalize_orders` (transformer.py
lines 25–37).  `float(payload.get("totalAmount", 0))` raises on present
non-numeric values. -/
def mkOrderRow (e : RawEvent) : Except String OrderRow := do
  let payload := e.payload
  let amt ← pyFloat (pyGetD payload "totalAmount" (Value.num 0))
  .ok
    { order_id := pyGet payload "order_id"
      customer_id := pyGet payload "customerId"
      order_amount := amt
      order_status := pyGet payload "state"
      created_at := to_datetime (pyGet payload "created_at")
      event_id := e.event_id
      vendor := e.vendor
      event_type := e.event_type }

/-- Python `str.lower()` on the ASCII status vocabulary of this pipeline. -/
def strLower (s : String) : String := ⟨s.data.map Char.toLower⟩

/-- The status-canonicalization block of `normalize_payments`
(transformer.py lines 66–71): truthy statuses are lower-cased (raising
`AttributeError` on non-strings) and mapped through the fixed vocabulary;
falsy statuses pass through untouched. -/
def canonStatus (v : Value) : Except String Value :=
  if v.truthy then
    match v with
    | .str s =>
      let sl := strLower s
      if sl ∈ ["failed", "fail", "error"] then .ok (Value.str "failed")
      else if sl ∈ ["success", "successful", "completed", "paid"] then .ok (Value.str "success")
      else .ok (Value.str sl)
    | _ => .error "AttributeError"
  else .ok v

/-- The resolved (pre-canonicalization) status of a payment event:
`payload.get("payment_status") or payload.get("status") or payload.get("state")`. -/
def statusResolved (e : RawEvent) : Value :=
  pyOr (pyGet e.payload "payment_status")
    (pyOr (pyGet e.payload "status") (pyGet e.payload "state"))

/-- The resolved amount of a payment event (the `or`-fallback chain of
transformer.py lines 59–62). -/
def paymentAmountResolved (e : RawEvent) : Value :=
  pyOr (pyGet e.payload "amountPaid")
    (pyOr (pyGet e.payload "amount")
      (pyOr (pyGet e.payload "payment_amount") (pyGet e.payload "totalAmount")))

/-- The per-event row construction of `normalize_payments` (transformer.py
lines 49–85).  The status block runs before the row literal, whose
`float(amount) if amount else 0.0` raises on truthy non-numeric amounts. -/
def mkPaymentRow (e : RawEvent) : Except String PaymentRow := do
  let payload := e.payload
  let payment_id :=
    pyOr (pyGet payload "transaction_id")
      (pyOr (pyGet payload "payment_id")
        (pyOr (pyGet payload "id") (pyGet payload "paymentId")))
  let order_id := pyOr (pyGet payload "order_id") (pyGet payload "orderId")
  let amount := paymentAmountResolved e
  let status ← canonStatus (statusResolved e)
  let method :=
    pyOr (pyGet payload "channel")
      (pyOr (pyGet payload "method") (pyGet payload "payment_method"))
  let date :=
    pyOr (pyGet payload "paid_at")
      (pyOr (pyGet payload "payment_date") (pyGet payload "created_at"))
  let payment_amount ← if amount.truthy then pyFloat amount else .ok 0
  .ok
    { payment_id := payment_id
      order_id := order_id
      payment_amount := payment_amount
      payment_status := status
      payment_method := method
      payment_date := to_datetime date
      event_id := e.event_id
      vendor := e.vendor }

/-- The resolved amount of a refund event (the `or`-fallback chain of
transformer.py lines 104–107). -/
def refundAmountResolved (e : RawEvent) : Value :=
  pyOr (pyGet e.payload "amountRefunded")
    (pyOr (pyGet e.payload "amount")
      (pyOr (pyGet e.payload "refund_amount") (pyGet e.payload "totalAmount")))

/-- The per-event row construction of `normalize_refunds` (transformer.py
lines 97–123). -/
def mkRefundRow (e : RawEvent) : Except String RefundRow := do
  let payload := e.payload
  let refund_id :=
    pyOr (pyGet payload "refund_id")
      (pyOr (pyGet payload "id") (pyGet payload "transaction_id"))
  let order_id := pyOr (pyGet payload "order_id") (pyGet payload "orderId")
  let payment_id :=
    pyOr (pyGet payload "payment_id")
      (pyOr (pyGet payload "paymentId") (pyGet payload "transaction_id"))
  let amount := refundAmountResolved e
  let reason := pyOr (pyGet payload "reason") (pyGet payload "refund_reason")
  let refund_type := pyOr (pyGet payload "type") (pyGet payload "refund_type")
  let date :=
    pyOr (pyGet payload "refunded_at")
      (pyOr (pyGet payload "refund_date") (pyGet payload "created_at"))
  let refund_amount ← if amount.truthy then pyFloat amount else .ok 0
  .ok
    { refund_id := refund_id
      order_id := order_id
      payment_id := payment_id
      refund_amount := refund_amount
      refund_reason := reason
      refund_type := refund_type
      refund_date := to_datetime date
      event_id := e.event_id
      vendor := e.vendor }

/-- `df.drop_duplicates(subset=[k], keep="last")`: keep a row iff no later
row has the same key, preserving the order of kept rows. -/
def keepLastBy {α κ : Type} [DecidableEq κ] (k : α → κ) : List α → List α
  | [] => []
  | x :: xs =>
    if xs.any (fun y => decide (k y = k x)) then keepLastBy k xs
    else x :: keepLastBy k xs

/-- Worker for `keepFirstBy`: `seen` is the set of keys already kept. -/
def keepFirstAux {α κ : Type} [DecidableEq κ] (k : α → κ) : List κ → List α → List α
  | _, [] => []
  | seen, x :: xs =>
    if k x ∈ seen then keepFirstAux k seen xs
    else x :: keepFirstAux k (k x :: seen) xs

/-- `df.drop_duplicates(subset=[k])` (default `keep="first"`): keep the
first row per key. -/
def keepFirstBy {α κ : Type} [DecidableEq κ] (k : α → κ) (l : List α) : List α :=
  keepFirstAux k [] l

/-- Timestamp comparison used by `sort_values("created_at",
na_position="first")`: `NaT` sorts before every timestamp. -/
def dleb : Option ℚ → Option ℚ → Bool
  | Option.none, _ => true
  | some _, Option.none => false
  | some a, some b => decide (a ≤ b)

/-- Row order of the Orders sort: ascending `created_at`, nulls first. -/
def ordLE (a b : OrderRow) : Prop := dleb a.created_at b.created_at = true

instance : DecidableRel ordLE := fun a b =>
  inferInstanceAs (Decidable (dleb a.created_at b.created_at = true))

theorem dleb_total (x y : Option ℚ) : dleb x y = true ∨ dleb y x = true := by
  cases x <;> cases y <;> simp [dleb]
  exact le_total _ _

theorem dleb_trans {x y z : Option ℚ} (h1 : dleb x y = true) (h2 : dleb y z = true) :
    dleb x z = true := by
  cases x <;> cases y <;> cases z <;> simp_all [dleb]
  exact le_trans h1 h2

theorem dleb_refl (x : Option ℚ) : dleb x x = true := by
  cases x <;> simp [dleb]

instance : IsTotal OrderRow ordLE := ⟨fun a b => dleb_total a.created_at b.created_at⟩

instance : IsTrans OrderRow ordLE := ⟨fun _ _ _ hab hbc => dleb_trans hab hbc⟩

/-- `normalize_orders` (transformer.py lines 20–41): empty input yields
`pd.DataFrame()` (no columns); otherwise build one row per event, sort by
`created_at` ascending with nulls first, and keep the last row per
`order_id`. -/
def normalize_orders (events : List RawEvent) : Except String (Frame OrderRow) :=
  if events.isEmpty then .ok ⟨[], []⟩
  else do
    let rows ← events.mapM mkOrderRow
    .ok ⟨orderCols, keepLastBy (·.order_id) (List.insertionSort ordLE rows)⟩

/-- `normalize_payments` (transformer.py lines 44–89): empty input yields
`pd.DataFrame()`; otherwise build one row per event and keep the first row
per `payment_id`. -/
def normalize_payments (events : List RawEvent) : Except String (Frame PaymentRow) :=
  if events.isEmpty then .ok ⟨[], []⟩
  else do
    let rows ← events.mapM mkPaymentRow
    .ok ⟨paymentCols, keepFirstBy (·.payment_id) rows⟩

/-- `normalize_refunds` (transformer.py lines 92–127): empty input yields
`pd.DataFrame()`; otherwise build one row per event and keep the first row
per `refund_id`. -/
def normalize_refunds (events : List RawEvent) : Except String (Frame RefundRow) :=
  if events.isEmpty then .ok ⟨[], []⟩
  else do
    let rows ← events.mapM mkRefundRow
    .ok ⟨refundCols, keepFirstBy (·.refund_id) rows⟩

/-- One output row of `build_fact_order_daily`. -/
structure DailyRow where
  order_date : ℚ
  vendor : String
  gross_revenue : ℚ
  total_refunds : ℚ
  net_revenue : ℚ
  order_count : ℕ
  paid_count : ℕ
  payment_success_rate : Option ℚ
  refund_rate : Option ℚ
deriving DecidableEq, Repr

/-- The per-group body of `build_fact_order_daily` (transformer.py lines
138–163): given a group's key and member rows, match payments and refunds
by `order_id` and derive the metrics. -/
def aggRow (d : ℚ) (v : String) (group : List OrderRow)
    (payments : List PaymentRow) (refunds : List RefundRow) : DailyRow :=
  let order_ids := group.map (·.order_id)
  let payments_subset := payments.filter (fun p => decide (p.order_id ∈ order_ids))
  let gross_revenue := (payments_subset.map (·.payment_amount)).sum
  let paid_count := payments_subset.countP (fun p => decide (p.payment_status = Value.str "success"))
  let refunds_subset := refunds.filter (fun rf => decide (rf.order_id ∈ order_ids))
  let total_refunds := (refunds_subset.map (·.refund_amount)).sum
  { order_date := d
    vendor := v
    gross_revenue := gross_revenue
    total_refunds := total_refunds
    net_revenue := gross_revenue - total_refunds
    order_count := order_ids.length
    paid_count := paid_count
    payment_success_rate :=
      if 0 < order_ids.length then some (pyRound ((paid_count : ℚ) / (order_ids.length : ℚ)) 4)
      else Option.none
    refund_rate :=
      if 0 < gross_revenue then some (pyRound (total_refunds / gross_revenue) 4)
      else Option.none }

/-- The grouping keys of `orders_df.groupby(["order_date", "vendor"])`:
distinct `(calendar date of created_at, vendor)` pairs; rows whose date or
vendor is null carry no key and are dropped (pandas `dropna`). -/
def aggKeys (rows : List OrderRow) : List (ℚ × String) :=
  (rows.filterMap (fun row =>
    match row.created_at, row.vendor with
    | some d, some v => some (d, v)
    | _, _ => Option.none)).dedup

/-- The member rows of the group keyed `(d, v)`. -/
def aggGroup (rows : List OrderRow) (d : ℚ) (v : String) : List OrderRow :=
  rows.filter (fun row => decide (row.created_at = some d ∧ row.vendor = some v))

/-- `build_fact_order_daily` (transformer.py lines 130–165).  Empty Orders
short-circuits to an empty frame; otherwise the function first assigns
`orders_df["order_date"]` — mutating the caller's Orders frame by
appending a column — and then emits one `DailyRow` per group.  The
returned pair is (the Orders frame as left after the call, the aggregate
rows); pandas group order is sorted and unspecified by the spec, so the
key order here is a modelling choice. -/
def build_fact_order_daily (o : Frame OrderRow) (p : Frame PaymentRow)
    (r : Frame RefundRow) : Frame OrderRow × List DailyRow :=
  if o.rows.isEmpty then (o, [])
  else
    let o' : Frame OrderRow := ⟨o.cols ++ ["order_date"], o.rows⟩
    (o', (aggKeys o.rows).map (fun dv => aggRow dv.1 dv.2 (aggGroup o.rows dv.1 dv.2) p.rows r.rows))

/-- The flat summary dict of `run_quality_report` (quality_report.py),
restricted to the completeness, orphan and revenue-integrity statistics.
The late-arrival and breakdown sections only print and do not feed any
verified property. -/
structure QReport where
  total_orders : ℕ
  total_payments : ℕ
  total_refunds : ℕ
  orders_missing_customer_id : ℕ
  orders_missing_amount : ℕ
  payments_missing_order_id : ℕ
  refunds_missing_payment_id : ℕ
  orphan_payments : ℕ
  orphan_refunds : ℕ
  gross_revenue : ℚ
  total_refunded : ℚ
  net_revenue : ℚ
  payment_success_rate : ℚ
  refund_rate : ℚ
deriving DecidableEq, Repr

/-- The statistics portion of `run_quality_report` (quality_report.py lines
34–124) as a function of the three canonical frames.  Column access on a
frame lacking the accessed columns raises `KeyError` (as it does in pandas
on the no-column empty frames produced for empty input).  The frames are
returned untouched alongside the report: no statement of this section
mutates them.  Note the zero-denominator branches yield the number `0`,
and the checker's gross revenue filters on `status == "success"`. -/
def quality_report_stats (o : Frame OrderRow) (p : Frame PaymentRow) (r : Frame RefundRow) :
    Except String ((Frame OrderRow × Frame PaymentRow × Frame RefundRow) × QReport) :=
  if (["customer_id", "order_amount", "order_id", "created_at", "vendor"].all
        (fun c => decide (c ∈ o.cols))
      && ["order_id", "payment_id", "payment_status", "payment_amount", "payment_date"].all
        (fun c => decide (c ∈ p.cols))
      && ["payment_id", "refund_amount"].all (fun c => decide (c ∈ r.cols))) then
    let successful_payments :=
      p.rows.filter (fun x => decide (x.payment_status = Value.str "success"))
    let gross_revenue := pyRound ((successful_payments.map (·.payment_amount)).sum) 2
    let total_refunded := pyRound ((r.rows.map (·.refund_amount)).sum) 2
    let total_payments := p.rows.length
    let successful_count := successful_payments.length
    .ok ((o, p, r),
      { total_orders := o.rows.length
        total_payments := total_payments
        total_refunds := r.rows.length
        orders_missing_customer_id := o.rows.countP (fun x => decide (x.customer_id = Value.none))
        orders_missing_amount := o.rows.countP (fun x => decide (x.order_amount = 0))
        payments_missing_order_id := p.rows.countP (fun x => decide (x.order_id = Value.none))
        refunds_missing_payment_id := r.rows.countP (fun x => decide (x.payment_id = Value.none))
        orphan_payments :=
          p.rows.countP (fun x => decide (x.order_id ∉ o.rows.map (·.order_id)))
        orphan_refunds :=
          r.rows.countP (fun x => decide (x.payment_id ∉ p.rows.map (·.payment_id)))
        gross_revenue := gross_revenue
        total_refunded := total_refunded
        net_revenue := pyRound (gross_revenue - total_refunded) 2
        payment_success_rate :=
          if 0 < total_payments then
            pyRound ((successful_count : ℚ) / (total_payments : ℚ)) 4
          else 0
        refund_rate :=
          if 0 < gross_revenue then pyRound (total_refunded / gross_revenue) 4
          else 0 })
  else .error "KeyError"

theorem exc_ok_bind {ε α β : Type} (a : α) (f : α → Except ε β) :
    (Except.ok a >>= f) = f a := rfl

theorem exc_error_bind {ε α β : Type} (m : ε) (f : α → Except ε β) :
    ((Except.error m : Except ε α) >>= f) = Except.error m := rfl

/-! ## Deduplication lemmas

`keepLastBy` after a stable ascending sort keeps, per key, the element a
fold over the *unsorted* list selects: the latest-in-input element among
those with maximal sort key (`winnerW`).  This characterization drives
both the Orders-dedup property and dedup idempotence. -/

/-- The last element with key `i`, if any. -/
def lastWith {α κ : Type} [DecidableEq κ] (k : α → κ) (i : κ) : List α → Option α
  | [] => Option.none
  | x :: xs =>
    match lastWith k i xs with
    | some y => some y
    | Option.none => if k x = i then some x else Option.none

/-- One step of the winner fold: a new, earlier-in-input element `a`
displaces the current winner only when it is strictly greater. -/
def stepW {α κ : Type} [DecidableEq κ] (k : α → κ) (r : α → α → Prop) [DecidableRel r]
    (i : κ) (a : α) (w : Option α) : Option α :=
  if k a = i then
    match w with
    | Option.none => some a
    | some v => if r a v then some v else some a
  else w

/-- The latest-in-input element among those with key `i` and maximal `r`-key. -/
def winnerW {α κ : Type} [DecidableEq κ] (k : α → κ) (r : α → α → Prop) [DecidableRel r]
    (i : κ) (l : List α) : Option α :=
  l.foldr (stepW k r i) Option.none

section DedupLemmas

variable {α κ : Type} [DecidableEq κ] (k : α → κ)

theorem lastWith_eq_none_iff {i : κ} {s : List α} :
    lastWith k i s = Option.none ↔ ∀ y ∈ s, k y ≠ i := by
  induction s with
  | nil => simp [lastWith]
  | cons x xs ih =>
    simp only [lastWith]
    cases h : lastWith k i xs with
    | some y =>
      simp only [reduceCtorEq, false_iff, not_forall]
      have : ¬ ∀ y ∈ xs, k y ≠ i := fun hall => by simp [ih.mpr hall] at h
      push_neg at this
      obtain ⟨y, hy, hky⟩ := this
      exact ⟨y, List.mem_cons_of_mem _ hy, fun hne => hne hky⟩
    | none =>
      by_cases hx : k x = i
      · simp [hx]
      · simp only [if_neg hx, true_iff, List.mem_cons]
        rintro y (rfl | hy)
        · exact hx
        · exact ih.mp h y hy

theorem lastWith_some (i : κ) {s : List α} {a : α} (h : lastWith k i s = some a) :
    a ∈ s ∧ k a = i := by
  induction s with
  | nil => simp [lastWith] at h
  | cons x xs ih =>
    simp only [lastWith] at h
    cases h' : lastWith k i xs with
    | some y =>
      rw [h'] at h
      cases h
      exact ⟨List.mem_cons_of_mem _ (ih h').1, (ih h').2⟩
    | none =>
      rw [h'] at h
      by_cases hx : k x = i
      · rw [if_pos hx] at h
        cases h
        exact ⟨List.mem_cons_self _ _, hx⟩
      · rw [if_neg hx] at h
        cases h

theorem mem_keepLastBy {s : List α} {a : α} :
    a ∈ keepLastBy k s ↔ lastWith k (k a) s = some a := by
  induction s with
  | nil => simp [keepLastBy, lastWith]
  | cons x xs ih =>
    simp only [keepLastBy, lastWith]
    by_cases hdup : xs.any (fun y => decide (k y = k x)) = true
    · rw [if_pos hdup]
      cases h' : lastWith k (k a) xs with
      | some y => simp [ih, h']
      | none =>
        have hnone : ∀ y ∈ xs, k y ≠ k a := (lastWith_eq_none_iff k).mp h'
        simp only [List.any_eq_true, decide_eq_true_eq] at hdup
        obtain ⟨y, hy, hkey⟩ := hdup
        have hxa : k x ≠ k a := fun he => hnone y hy (hkey.trans he)
        rw [if_neg hxa]
        simp [ih, h']
    · rw [if_neg hdup]
      simp only [List.any_eq_true, decide_eq_true_eq, not_exists, not_and] at hdup
      push_neg at hdup
      constructor
      · intro hmem
        rcases List.mem_cons.mp hmem with rfl | hmem'
        · have : lastWith k (k a) xs = Option.none :=
            (lastWith_eq_none_iff k).mpr (fun y hy => hdup y hy)
          simp [this]
        · rw [ih.mp hmem']
      · intro h
        cases h' : lastWith k (k a) xs with
        | some y =>
          rw [h'] at h
          cases h
          exact List.mem_cons_of_mem _ (ih.mpr h')
        | none =>
          rw [h'] at h
          by_cases hx : k x = k a
          · rw [if_pos hx] at h
            cases h
            exact List.mem_cons_self _ _
          · rw [if_neg hx] at h
            cases h

theorem keepLastBy_subset {s : List α} : keepLastBy k s ⊆ s := by
  induction s with
  | nil => simp [keepLastBy]
  | cons x xs ih =>
    simp only [keepLastBy]
    by_cases hdup : xs.any (fun y => decide (k y = k x)) = true
    · rw [if_pos hdup]
      exact fun a ha => List.mem_cons_of_mem _ (ih ha)
    · rw [if_neg hdup]
      intro a ha
      rcases List.mem_cons.mp ha with rfl | ha'
      · exact List.mem_cons_self _ _
      · exact List.mem_cons_of_mem _ (ih ha')

theorem keepLastBy_pairwise_keys {s : List α} :
    (keepLastBy k s).Pairwise (fun a b => k a ≠ k b) := by
  induction s with
  | nil => simp [keepLastBy]
  | cons x xs ih =>
    simp only [keepLastBy]
    by_cases hdup : xs.any (fun y => decide (k y = k x)) = true
    · rw [if_pos hdup]; exact ih
    · rw [if_neg hdup]
      simp only [List.any_eq_true, decide_eq_true_eq] at hdup
      push_neg at hdup
      exact List.Pairwise.cons
        (fun b hb => fun he => hdup b (keepLastBy_subset k hb) he.symm) ih

theorem keepLastBy_nodup {s : List α} : (keepLastBy k s).Nodup :=
  (keepLastBy_pairwise_keys k).imp (fun h => fun he => h (he ▸ rfl))

variable (r : α → α → Prop) [DecidableRel r]

theorem winnerW_eq_none_iff {i : κ} {l : List α} :
    winnerW k r i l = Option.none ↔ ∀ x ∈ l, k x ≠ i := by
  induction l with
  | nil => simp [winnerW]
  | cons a l ih =>
    simp only [winnerW, List.foldr_cons] at ih ⊢
    by_cases ha : k a = i
    · simp only [stepW, if_pos ha]
      cases h : List.foldr (stepW k r i) Option.none l with
      | none =>
        dsimp only
        constructor
        · intro hif
          cases hif
        · intro hall
          exact absurd ha (hall a (List.mem_cons_self _ _))
      | some v =>
        dsimp only
        constructor
        · intro hif
          split at hif <;> cases hif
        · intro hall
          exact absurd ha (hall a (List.mem_cons_self _ _))
    · simp only [stepW, if_neg ha, ih, List.mem_cons]
      constructor
      · rintro h y (rfl | hy)
        · exact ha
        · exact h y hy
      · intro h y hy
        exact h y (Or.inr hy)

theorem winnerW_some (i : κ) {l : List α} {w : α} (h : winnerW k r i l = some w) :
    w ∈ l ∧ k w = i := by
  induction l with
  | nil => simp [winnerW] at h
  | cons a l ih =>
    simp only [winnerW, List.foldr_cons, stepW] at h ih
    by_cases ha : k a = i
    · rw [if_pos ha] at h
      cases h' : List.foldr (stepW k r i) Option.none l with
      | none =>
        rw [h'] at h
        dsimp only at h
        cases h
        exact ⟨List.mem_cons_self _ _, ha⟩
      | some v =>
        rw [h'] at h
        dsimp only at h
        by_cases hr : r a v
        · rw [if_pos hr] at h
          cases h
          exact ⟨List.mem_cons_of_mem _ (ih h').1, (ih h').2⟩
        · rw [if_neg hr] at h
          cases h
          exact ⟨List.mem_cons_self _ _, ha⟩
    · rw [if_neg ha] at h
      exact ⟨List.mem_cons_of_mem _ (ih h).1, (ih h).2⟩

variable [IsTotal α r] [IsTrans α r]

omit [DecidableRel r] [IsTrans α r] in
theorem rel_refl_of_total (a : α) : r a a := (IsTotal.total (r := r) a a).elim id id

/-- Maximality of the winner: it is `r`-above every element of its key class. -/
theorem winnerW_max {i : κ} {l : List α} {w : α} (h : winnerW k r i l = some w) :
    ∀ x ∈ l, k x = i → r x w := by
  induction l generalizing w with
  | nil => simp [winnerW] at h
  | cons a l ih =>
    simp only [winnerW, List.foldr_cons, stepW] at h ih
    intro x hx hkx
    by_cases ha : k a = i
    · rw [if_pos ha] at h
      cases h' : List.foldr (stepW k r i) Option.none l with
      | none =>
        rw [h'] at h
        dsimp only at h
        cases h
        rcases List.mem_cons.mp hx with rfl | hx'
        · exact rel_refl_of_total r x
        · exact absurd hkx ((winnerW_eq_none_iff k r).mp h' x hx')
      | some v =>
        rw [h'] at h
        dsimp only at h
        by_cases hr : r a v
        · rw [if_pos hr] at h
          cases h
          rcases List.mem_cons.mp hx with rfl | hx'
          · exact hr
          · exact ih h' x hx' hkx
        · rw [if_neg hr] at h
          cases h
          rcases List.mem_cons.mp hx with rfl | hx'
          · exact rel_refl_of_total r x
          · have hxv : r x v := ih h' x hx' hkx
            have hva : r v a := (IsTotal.total (r := r) a v).resolve_left hr
            exact IsTrans.trans x v a hxv hva
    · rw [if_neg ha] at h
      rcases List.mem_cons.mp hx with rfl | hx'
      · exact absurd hkx ha
      · exact ih h x hx' hkx

/-- `lastWith` over a sorted insertion of `a` is one `stepW` applied to the
old `lastWith`: even when `a` has the key, it lands before every tie, so an
existing last element of the class survives unless `a` is strictly greater. -/
theorem lastWith_orderedInsert {i : κ} (a : α) {s : List α}
    (hs : List.Sorted r s) :
    lastWith k i (List.orderedInsert r a s) = stepW k r i a (lastWith k i s) := by
  induction s with
  | nil =>
    by_cases ha : k a = i <;> simp [lastWith, stepW, ha]
  | cons b t ih =>
    have hbt : ∀ y ∈ t, r b y := (List.sorted_cons.mp hs).1
    have ht : List.Sorted r t := (List.sorted_cons.mp hs).2
    by_cases hab : r a b
    · rw [List.orderedInsert, if_pos hab]
      show lastWith k i (a :: b :: t) = _
      simp only [lastWith]
      cases h' : lastWith k i (b :: t) with
      | some v =>
        have hv := lastWith_some k i h'
        have hbv : r b v := by
          rcases List.mem_cons.mp hv.1 with rfl | hv'
          · exact rel_refl_of_total r v
          · exact hbt v hv'
        have hav : r a v := IsTrans.trans a b v hab hbv
        simp only [lastWith] at h'
        rw [h']
        by_cases ha : k a = i <;> simp [stepW, ha, hav, h']
      | none =>
        simp only [lastWith] at h'
        rw [h']
        by_cases ha : k a = i <;> simp [stepW, ha, h']
    · rw [List.orderedInsert, if_neg hab]
      show lastWith k i (b :: List.orderedInsert r a t) = _
      simp only [lastWith, ih ht]
      by_cases ha : k a = i
      · cases h' : lastWith k i t with
        | some v =>
          by_cases hr : r a v <;> simp [stepW, ha, h', lastWith, hr]
        | none =>
          by_cases hb : k b = i
          · have : ¬ r a b := hab
            simp [stepW, ha, h', hb, lastWith, this]
          · simp [stepW, ha, h', hb, lastWith]
      · cases h' : lastWith k i t with
        | some v => simp [stepW, ha, h', lastWith]
        | none =>
          by_cases hb : k b = i <;> simp [stepW, ha, h', hb, lastWith]

/-- After a stable ascending sort, the last element of a key class is the
fold-selected winner of the unsorted list. -/
theorem lastWith_insertionSort (i : κ) (l : List α) :
    lastWith k i (List.insertionSort r l) = winnerW k r i l := by
  induction l with
  | nil => simp [lastWith, winnerW]
  | cons a l ih =>
    rw [List.insertionSort,
      lastWith_orderedInsert k r a (List.sorted_insertionSort r l), ih]
    rfl

/-- Membership in sort-then-dedup, characterized over the unsorted list. -/
theorem mem_keepLastBy_insertionSort {l : List α} {a : α} :
    a ∈ keepLastBy k (List.insertionSort r l) ↔ winnerW k r (k a) l = some a := by
  rw [mem_keepLastBy, lastWith_insertionSort]

end DedupLemmas

/-- Combination of the winners of two list segments. -/
def joinW {α : Type} (r : α → α → Prop) [DecidableRel r] : Option α → Option α → Option α
  | Option.none, y => y
  | some a, Option.none => some a
  | some a, some v => if r a v then some v else some a

section WinnerAppend

variable {α κ : Type} [DecidableEq κ] (k : α → κ)
variable (r : α → α → Prop) [DecidableRel r] [IsTotal α r] [IsTrans α r]

theorem foldr_stepW_eq_joinW (l : List α) (i : κ) (w : Option α) :
    l.foldr (stepW k r i) w = joinW r (winnerW k r i l) w := by
  induction l with
  | nil => cases w <;> simp [winnerW, joinW]
  | cons a l ih =>
    simp only [List.foldr_cons, ih, winnerW]
    by_cases ha : k a = i
    · cases hl : List.foldr (stepW k r i) Option.none l with
      | none =>
        cases w with
        | none => simp [stepW, joinW, ha]
        | some v => simp [stepW, joinW, ha]
      | some u =>
        cases w with
        | none =>
          by_cases hau : r a u <;> simp [stepW, joinW, ha, hau]
        | some v =>
          simp only [stepW, if_pos ha, joinW]
          by_cases hau : r a u
          · by_cases huv : r u v
            · have hav : r a v := IsTrans.trans a u v hau huv
              simp [joinW, hau, huv, hav]
            · simp [joinW, hau, huv]
          · by_cases huv : r u v
            · by_cases hav : r a v
              · have hua : r u a := (IsTotal.total (r := r) a u).resolve_left hau
                have huv' : r u v := huv
                simp [joinW, hau, huv, hav]
              · simp [joinW, hau, huv, hav]
            · have hvu : r v u := (IsTotal.total (r := r) u v).resolve_left huv
              have hav : ¬ r a v := fun h => hau (IsTrans.trans a v u h hvu)
              simp [joinW, hau, huv, hav]
    · cases hl : List.foldr (stepW k r i) Option.none l <;>
        simp [stepW, joinW, ha]

theorem winnerW_append (l₁ l₂ : List α) (i : κ) :
    winnerW k r i (l₁ ++ l₂) = joinW r (winnerW k r i l₁) (winnerW k r i l₂) := by
  rw [winnerW, List.foldr_append, foldr_stepW_eq_joinW k r, ← winnerW]

theorem winnerW_self_append (l : List α) (i : κ) :
    winnerW k r i (l ++ l) = winnerW k r i l := by
  rw [winnerW_append]
  cases h : winnerW k r i l with
  | none => rfl
  | some a => simp [joinW, rel_refl_of_total r a]

end WinnerAppend

section KeepFirst

variable {α κ : Type} [DecidableEq κ] (k : α → κ)

/-- The keys recorded after processing `l` starting from `seen`. -/
def seenAfter (seen : List κ) : List α → List κ
  | [] => seen
  | x :: xs => if k x ∈ seen then seenAfter seen xs else seenAfter (k x :: seen) xs

theorem subset_seenAfter (seen : List κ) (l : List α) : seen ⊆ seenAfter k seen l := by
  induction l generalizing seen with
  | nil => simp [seenAfter]
  | cons x xs ih =>
    simp only [seenAfter]
    by_cases hx : k x ∈ seen
    · rw [if_pos hx]; exact ih seen
    · rw [if_neg hx]
      exact fun a ha => ih (k x :: seen) (List.mem_cons_of_mem _ ha)

theorem keys_subset_seenAfter (seen : List κ) (l : List α) :
    ∀ x ∈ l, k x ∈ seenAfter k seen l := by
  induction l generalizing seen with
  | nil => simp
  | cons y ys ih =>
    intro x hx
    simp only [seenAfter]
    by_cases hy : k y ∈ seen
    · rw [if_pos hy]
      rcases List.mem_cons.mp hx with rfl | hx'
      · exact subset_seenAfter k seen ys hy
      · exact ih seen x hx'
    · rw [if_neg hy]
      rcases List.mem_cons.mp hx with rfl | hx'
      · exact subset_seenAfter k _ ys (List.mem_cons_self _ _)
      · exact ih _ x hx'

theorem keepFirstAux_append (seen : List κ) (l m : List α) :
    keepFirstAux k seen (l ++ m) = keepFirstAux k seen l ++ keepFirstAux k (seenAfter k seen l) m := by
  induction l generalizing seen with
  | nil => simp [keepFirstAux, seenAfter]
  | cons x xs ih =>
    by_cases hx : k x ∈ seen
    · simp only [List.cons_append, keepFirstAux, seenAfter, if_pos hx, List.append_eq, ih]
    · simp only [List.cons_append, keepFirstAux, seenAfter, if_neg hx, List.append_eq, ih]

theorem keepFirstAux_all_seen (seen : List κ) (m : List α)
    (h : ∀ x ∈ m, k x ∈ seen) : keepFirstAux k seen m = [] := by
  induction m with
  | nil => rfl
  | cons x xs ih =>
    simp only [keepFirstAux, if_pos (h x (List.mem_cons_self _ _))]
    exact ih (fun y hy => h y (List.mem_cons_of_mem _ hy))

/-- Feeding a list to first-wins deduplication twice changes nothing: the
second copy is entirely dropped. -/
theorem keepFirstBy_self_append (l : List α) : keepFirstBy k (l ++ l) = keepFirstBy k l := by
  rw [keepFirstBy, keepFirstBy, keepFirstAux_append,
    keepFirstAux_all_seen k _ l (keys_subset_seenAfter k [] l), List.append_nil]

end KeepFirst

/-- `run_quality_report` (quality_report.py lines 6–165) as a function of
the raw event lists its internal `fetch_events` calls return: normalize
each entity type, then compute the report over the canonical frames. -/
def run_quality_report (rawOrders rawPayments rawRefunds : List RawEvent) :
    Except String ((Frame OrderRow × Frame PaymentRow × Frame RefundRow) × QReport) := do
  let o ← normalize_orders rawOrders
  let p ← normalize_payments rawPayments
  let r ← normalize_refunds rawRefunds
  quality_report_stats o p r

/-! ## Sample rows and frames used by concrete checks -/

/-- A canonical order row with the fields the aggregator and checker read. -/
def mkORow (oid : Value) (c : Option ℚ) (v : Option String) : OrderRow :=
  { order_id := oid, customer_id := Value.none, order_amount := 0,
    order_status := Value.none, created_at := c, event_id := Option.none,
    vendor := v, event_type := Option.none }

/-- A canonical payment row with the fields the aggregator and checker read. -/
def mkPRow (pid oid : Value) (amt : ℚ) (st : Value) : PaymentRow :=
  { payment_id := pid, order_id := oid, payment_amount := amt, payment_status := st,
    payment_method := Value.none, payment_date := Option.none, event_id := Option.none,
    vendor := Option.none }

/-- A canonical refund row with the fields the aggregator and checker read. -/
def mkRRow (rid oid : Value) (amt : ℚ) : RefundRow :=
  { refund_id := rid, order_id := oid, payment_id := Value.none, refund_amount := amt,
    refund_reason := Value.none, refund_type := Value.none, refund_date := Option.none,
    event_id := Option.none, vendor := Option.none }

/-! ## C3 — empty input: empty table, but with *no* columns -/

/-- C3 counterexample: the claim says an empty input yields an empty table
that still carries the full canonical column schema.  The code returns
`pd.DataFrame()`, whose column index is empty: `normalize_orders []` has
column list `[]`, not `orderCols`. -/
theorem c3_counterexample :
    normalize_orders [] = .ok ⟨[], []⟩ ∧ ([] : List String) ≠ orderCols := by
  constructor
  · rfl
  · decide

/-- C3 amended: each normalizer maps the empty event sequence to an empty
frame with an *empty* column schema (`pd.DataFrame()`), without error; and
the Daily Aggregator maps an Orders frame with no rows to an empty
aggregate list — and leaves the frame untouched — regardless of the
Payments and Refunds frames. -/
theorem c3_empty_input_laws :
    normalize_orders [] = .ok ⟨[], []⟩ ∧
    normalize_payments [] = .ok ⟨[], []⟩ ∧
    normalize_refunds [] = .ok ⟨[], []⟩ ∧
    ∀ (c : List String) (p : Frame PaymentRow) (r : Frame RefundRow),
      build_fact_order_daily ⟨c, []⟩ p r = (⟨c, []⟩, []) := by
  refine ⟨rfl, rfl, rfl, fun c p r => ?_⟩
  rfl

/-! ## C6 — payment status canonicalization -/

/-- C6: for every payment event whose resolved status is a non-empty
string, the canonical row's status is the lower-cased input mapped through
the fixed vocabulary (`failed`/`fail`/`error` to `"failed"`,
`success`/`successful`/`completed`/`paid` to `"success"`, anything else
passed through lower-cased); and all the spec's sample strings map as
stated. -/
theorem c6_status_canonicalization :
    (∀ (e : RawEvent) (row : PaymentRow) (s : String),
      mkPaymentRow e = .ok row → statusResolved e = Value.str s → s ≠ "" →
      row.payment_status =
        Value.str (if strLower s ∈ ["failed", "fail", "error"] then "failed"
          else if strLower s ∈ ["success", "successful", "completed", "paid"] then "success"
          else strLower s)) ∧
    canonStatus (Value.str "FAILED") = .ok (Value.str "failed") ∧
    canonStatus (Value.str "fail") = .ok (Value.str "failed") ∧
    canonStatus (Value.str "Error") = .ok (Value.str "failed") ∧
    canonStatus (Value.str "Success") = .ok (Value.str "success") ∧
    canonStatus (Value.str "PAID") = .ok (Value.str "success") ∧
    canonStatus (Value.str "Completed") = .ok (Value.str "success") ∧
    canonStatus (Value.str "Pending") = .ok (Value.str "pending") := by
  refine ⟨?_, by decide, by decide, by decide, by decide, by decide, by decide, by decide⟩
  intro e row s hmk hst hs
  unfold mkPaymentRow at hmk
  rw [hst] at hmk
  have htr : (Value.str s).truthy = true := by simp [Value.truthy, hs]
  have hcs : canonStatus (Value.str s) = .ok
      (Value.str (if strLower s ∈ ["failed", "fail", "error"] then "failed"
        else if strLower s ∈ ["success", "successful", "completed", "paid"] then "success"
        else strLower s)) := by
    simp only [canonStatus, htr, if_true]
    by_cases h1 : strLower s ∈ ["failed", "fail", "error"]
    · simp [h1]
    · by_cases h2 : strLower s ∈ ["success", "successful", "completed", "paid"] <;> simp [h1, h2]
  rw [hcs, exc_ok_bind] at hmk
  by_cases hta : (paymentAmountResolved e).truthy = true
  · rw [if_pos hta] at hmk
    cases hq : pyFloat (paymentAmountResolved e) with
    | error m =>
      simp only [hq, exc_error_bind] at hmk
      cases hmk
    | ok q =>
      simp only [hq, exc_ok_bind] at hmk
      cases hmk
      rfl
  · rw [if_neg hta] at hmk
    simp only [exc_ok_bind] at hmk
    cases hmk
    rfl

/-- A payment event whose resolved status is the non-empty string `"PAID"`. -/
def c6ev : RawEvent :=
  { event_id := some "ev-c6", event_type := some "payment_attempt", vendor := some "vendorX",
    payload := [("payment_id", Value.str "p6"), ("status", Value.str "PAID"),
      ("amount", Value.num 5)] }

/-- The canonical row the embedding produces for `c6ev`. -/
def c6row : PaymentRow :=
  { payment_id := Value.str "p6", order_id := Value.none, payment_amount := 5,
    payment_status := Value.str "success", payment_method := Value.none,
    payment_date := Option.none, event_id := some "ev-c6", vendor := some "vendorX" }

theorem c6_witness :
    mkPaymentRow c6ev = .ok c6row ∧ statusResolved c6ev = Value.str "PAID" ∧
    "PAID" ≠ "" ∧ c6row.payment_status = Value.str "success" := by
  refine ⟨by decide, by decide, by decide, ?_⟩
  have h := c6_status_canonicalization.1 c6ev c6row "PAID" (by decide) (by decide) (by decide)
  rw [h]
  decide

/-! ## C10 — the aggregator mutates its Orders input; the checker does not -/

/-- A non-empty Orders frame fed to the aggregator. -/
def c10o : Frame OrderRow := ⟨orderCols, [mkORow (Value.str "A") (some 20240101) (some "v")]⟩

/-- C10 counterexample: the claim says neither consumer modifies its input
tables.  `build_fact_order_daily` assigns `orders_df["order_date"]`,
so after the call the Orders frame has gained a column: its column list is
no longer `orderCols`. -/
theorem c10_counterexample :
    ((build_fact_order_daily c10o ⟨paymentCols, []⟩ ⟨refundCols, []⟩).1).cols =
      orderCols ++ ["order_date"] ∧
    orderCols ++ ["order_date"] ≠ orderCols := by
  constructor
  · rfl
  · decide

/-- C10 amended: the Quality Checker is read-only — it returns the three
canonical frames exactly as given — but the Daily Aggregator is not: on a
non-empty Orders frame it appends an `order_date` column to the Orders
frame (row content of the existing columns unchanged; the Payments and
Refunds frames, not being returned or assigned to, are untouched). -/
theorem c10_mutation :
    (∀ (o : Frame OrderRow) (p : Frame PaymentRow) (r : Frame RefundRow),
      o.rows ≠ [] →
      (build_fact_order_daily o p r).1 = ⟨o.cols ++ ["order_date"], o.rows⟩) ∧
    (∀ (o : Frame OrderRow) (p : Frame PaymentRow) (r : Frame RefundRow),
      o.rows = [] → (build_fact_order_daily o p r).1 = o) ∧
    (∀ (o : Frame OrderRow) (p : Frame PaymentRow) (r : Frame RefundRow) st rep,
      quality_report_stats o p r = .ok (st, rep) → st = (o, p, r)) := by
  refine ⟨fun o p r h => ?_, fun o p r h => ?_, fun o p r st rep h => ?_⟩
  · rw [build_fact_order_daily, if_neg (by simp [List.isEmpty_iff, h])]
  · rw [build_fact_order_daily, if_pos (by simp [List.isEmpty_iff, h])]
  · unfold quality_report_stats at h
    split at h
    · cases h
      rfl
    · cases h

theorem c10_witness :
    c10o.rows ≠ [] ∧
    (build_fact_order_daily c10o ⟨paymentCols, []⟩ ⟨refundCols, []⟩).1 =
      ⟨orderCols ++ ["order_date"], c10o.rows⟩ ∧
    ∀ st rep, quality_report_stats c10o ⟨paymentCols, []⟩ ⟨refundCols, []⟩ = .ok (st, rep) →
      st = (c10o, ⟨paymentCols, []⟩, ⟨refundCols, []⟩) := by
  refine ⟨by decide, ?_, ?_⟩
  · exact c10_mutation.1 c10o ⟨paymentCols, []⟩ ⟨refundCols, []⟩ (by decide)
  · exact fun st rep h => c10_mutation.2.2 c10o ⟨paymentCols, []⟩ ⟨refundCols, []⟩ st rep h

/-! ## C2 — amount coercion -/

/-- An order event whose `totalAmount` is a non-numeric string. -/
def c2evBad : RawEvent :=
  { event_id := some "ev-bad", event_type := some "historical_order", vendor := some "v",
    payload := [("order_id", Value.str "Z"), ("totalAmount", Value.str "abc")] }

/-- An order event whose `totalAmount` is negative. -/
def c2evNeg : RawEvent :=
  { event_id := some "ev-neg", event_type := some "historical_order", vendor := some "v",
    payload := [("order_id", Value.str "N"), ("totalAmount", Value.num (-5))] }

/-- The row the embedding produces for `c2evNeg`. -/
def c2negRow : OrderRow :=
  { order_id := Value.str "N", customer_id := Value.none, order_amount := -5,
    order_status := Value.none, created_at := Option.none, event_id := some "ev-neg",
    vendor := some "v", event_type := some "historical_order" }

/-- C2 counterexample: the claim says the amount is always coerced to a
non-negative value, with non-numeric amounts becoming `0.0` and no
abort.  In fact `float(payload.get("totalAmount", 0))` raises on the
string `"abc"` — aborting normalization — and passes `-5` through
un-clamped. -/
theorem c2_counterexample :
    normalize_orders [c2evBad] = .error "ValueError" ∧
    normalize_orders [c2evNeg] = .ok ⟨orderCols, [c2negRow]⟩ ∧
    c2negRow.order_amount < 0 := by
  refine ⟨by decide, by decide, ?_⟩
  show (-5 : ℚ) < 0
  norm_num

/-- C2 amended: amounts go through Python `float` with truthiness
fallbacks, not a non-negative coercion.  Orders: a missing `totalAmount`
defaults to `0.0`; a numeric value (negative included) passes through;
a present non-numeric string raises `ValueError`, aborting normalization;
a present null raises `TypeError`.  Payments/Refunds: a falsy resolved
amount (missing, null, `0`, `""`) becomes `0.0` without error; a non-zero
numeric value passes through; a truthy non-numeric string raises
`ValueError`, aborting normalization (for payments, provided status
canonicalization itself succeeded, since it runs first). -/
theorem c2_amount_coercion :
    (∀ e row, mkOrderRow e = .ok row → pget e.payload "totalAmount" = Option.none →
      row.order_amount = 0) ∧
    (∀ e row q, mkOrderRow e = .ok row → pget e.payload "totalAmount" = some (Value.num q) →
      row.order_amount = q) ∧
    (∀ e s, pget e.payload "totalAmount" = some (Value.str s) → parseRat s = Option.none →
      mkOrderRow e = .error "ValueError") ∧
    (∀ e, pget e.payload "totalAmount" = some Value.none →
      mkOrderRow e = .error "TypeError") ∧
    (∀ e row, mkPaymentRow e = .ok row → (paymentAmountResolved e).truthy = false →
      row.payment_amount = 0) ∧
    (∀ e row q, mkPaymentRow e = .ok row → paymentAmountResolved e = Value.num q → q ≠ 0 →
      row.payment_amount = q) ∧
    (∀ e s v, paymentAmountResolved e = Value.str s → s ≠ "" → parseRat s = Option.none →
      canonStatus (statusResolved e) = .ok v → mkPaymentRow e = .error "ValueError") ∧
    (∀ e row, mkRefundRow e = .ok row → (refundAmountResolved e).truthy = false →
      row.refund_amount = 0) ∧
    (∀ e s, refundAmountResolved e = Value.str s → s ≠ "" → parseRat s = Option.none →
      mkRefundRow e = .error "ValueError") := by
  refine ⟨?_, ?_, ?_, ?_, ?_, ?_, ?_, ?_, ?_⟩
  · intro e row h hm
    unfold mkOrderRow at h
    simp only [pyGetD, hm, Option.getD, pyFloat, exc_ok_bind] at h
    cases h
    rfl
  · intro e row q h hm
    unfold mkOrderRow at h
    simp only [pyGetD, hm, Option.getD, pyFloat, exc_ok_bind] at h
    cases h
    rfl
  · intro e s hm hp
    unfold mkOrderRow
    simp only [pyGetD, hm, Option.getD, pyFloat, hp, exc_error_bind]
  · intro e hm
    unfold mkOrderRow
    simp only [pyGetD, hm, Option.getD, pyFloat, exc_error_bind]
  · intro e row h hf
    unfold mkPaymentRow at h
    cases hst : canonStatus (statusResolved e) with
    | error m =>
      rw [hst, exc_error_bind] at h
      cases h
    | ok v =>
      rw [hst, exc_ok_bind] at h
      rw [if_neg (by simp [hf])] at h
      simp only [exc_ok_bind] at h
      cases h
      rfl
  · intro e row q h ha hq
    unfold mkPaymentRow at h
    cases hst : canonStatus (statusResolved e) with
    | error m =>
      rw [hst, exc_error_bind] at h
      cases h
    | ok v =>
      rw [hst, exc_ok_bind] at h
      have ht : (paymentAmountResolved e).truthy = true := by
        rw [ha]; simp [Value.truthy, hq]
      rw [if_pos ht, ha] at h
      simp only [pyFloat, exc_ok_bind] at h
      cases h
      rfl
  · intro e s v ha hs hp hst
    unfold mkPaymentRow
    rw [hst, exc_ok_bind]
    have ht : (paymentAmountResolved e).truthy = true := by
      rw [ha]; simp [Value.truthy, hs]
    rw [if_pos ht, ha]
    simp only [pyFloat, hp, exc_error_bind]
  · intro e row h hf
    unfold mkRefundRow at h
    rw [if_neg (by simp [hf])] at h
    simp only [exc_ok_bind] at h
    cases h
    rfl
  · intro e s ha hs hp
    unfold mkRefundRow
    have ht : (refundAmountResolved e).truthy = true := by
      rw [ha]; simp [Value.truthy, hs]
    rw [if_pos ht, ha]
    simp only [pyFloat, hp, exc_error_bind]

/-- An order event with no `totalAmount` at all. -/
def c2evMissing : RawEvent :=
  { event_id := some "ev-missing", event_type := some "historical_order", vendor := some "v",
    payload := [("order_id", Value.str "M")] }

/-- The row the embedding produces for `c2evMissing`. -/
def c2missingRow : OrderRow :=
  { order_id := Value.str "M", customer_id := Value.none, order_amount := 0,
    order_status := Value.none, created_at := Option.none, event_id := some "ev-missing",
    vendor := some "v", event_type := some "historical_order" }

theorem c2_witness :
    mkOrderRow c2evMissing = .ok c2missingRow ∧
    pget c2evMissing.payload "totalAmount" = Option.none ∧
    c2missingRow.order_amount = 0 ∧
    pget c2evBad.payload "totalAmount" = some (Value.str "abc") ∧
    parseRat "abc" = Option.none ∧
    mkOrderRow c2evBad = .error "ValueError" := by
  refine ⟨by decide, by decide, ?_, by decide, by decide, ?_⟩
  · exact c2_amount_coercion.1 c2evMissing c2missingRow (by decide) (by decide)
  · exact c2_amount_coercion.2.2.1 c2evBad "abc" (by decide) (by decide)

/-! ## C4 — zero denominators -/

theorem pyRound_zero (n : ℕ) : pyRound 0 n = 0 := by
  simp [pyRound, roundHalfEven]

/-- Frames whose checker gross revenue is zero: one order, one *failed*
payment, one refund. -/
def c4o : Frame OrderRow := ⟨orderCols, [mkORow (Value.str "A") (some 20240101) (some "v")]⟩

def c4p : Frame PaymentRow := ⟨paymentCols, [mkPRow (Value.str "p1") (Value.str "A") 20 (Value.str "failed")]⟩

def c4r : Frame RefundRow := ⟨refundCols, [mkRRow (Value.str "r1") (Value.str "A") 3]⟩

/-- C4 counterexample: the claim says every ratio metric yields
null/undefined — and not the number `0` — whenever its denominator is
zero.  The checker's `run_quality_report` instead yields the number `0`
(`else 0`): with zero gross revenue its `refund_rate` is `0`, and with an
empty Payments table its `payment_success_rate` is `0`. -/
theorem c4_counterexample :
    (quality_report_stats c4o c4p c4r).map
      (fun x => (x.2.gross_revenue, x.2.refund_rate)) = .ok (0, 0) ∧
    (quality_report_stats c4o ⟨paymentCols, []⟩ c4r).map
      (fun x => (x.2.total_payments, x.2.payment_success_rate)) = .ok (0, 0) := by
  constructor
  · unfold quality_report_stats
    rw [if_pos (by decide)]
    show Except.ok _ = _
    simp [c4p, mkPRow, pyRound_zero]
  · unfold quality_report_stats
    rw [if_pos (by decide)]
    show Except.ok _ = _
    simp

/-- C4 amended: the Daily Aggregator's ratio guards yield null (`None`):
`payment_success_rate` is null when a group's order count is zero and
`refund_rate` is null when a group's gross revenue is zero.  The
Quality/Integrity Checker's guards instead yield the *number* `0` for both
`payment_success_rate` (zero total payments) and `refund_rate` (zero gross
revenue); neither consumer raises. -/
theorem c4_zero_denominator_guards :
    (∀ (d : ℚ) (v : String) (p : List PaymentRow) (r : List RefundRow),
      (aggRow d v [] p r).payment_success_rate = Option.none) ∧
    (∀ (d : ℚ) (v : String) (g : List OrderRow) (p : List PaymentRow) (r : List RefundRow),
      (aggRow d v g p r).gross_revenue = 0 → (aggRow d v g p r).refund_rate = Option.none) ∧
    (∀ o p r st rep, quality_report_stats o p r = .ok (st, rep) → p.rows = [] →
      rep.payment_success_rate = 0) ∧
    (∀ o p r st rep, quality_report_stats o p r = .ok (st, rep) → rep.gross_revenue = 0 →
      rep.refund_rate = 0) := by
  refine ⟨?_, ?_, ?_, ?_⟩
  · intro d v p r
    simp [aggRow]
  · intro d v g p r h
    simp only [aggRow] at h ⊢
    rw [h]
    simp
  · intro o p r st rep h hrows
    unfold quality_report_stats at h
    split at h
    · cases h
      simp [hrows]
    · cases h
  · intro o p r st rep h hg
    unfold quality_report_stats at h
    split at h
    · cases h
      simp only at hg ⊢
      rw [hg]
      simp
    · cases h

theorem c4_witness :
    (aggRow 20240101 "v" [mkORow (Value.str "A") (some 20240101) (some "v")]
      [] []).gross_revenue = 0 ∧
    (aggRow 20240101 "v" [mkORow (Value.str "A") (some 20240101) (some "v")]
      [] []).refund_rate = Option.none ∧
    (aggRow 20240101 "v" [] [] []).payment_success_rate = Option.none := by
  refine ⟨rfl, ?_, c4_zero_denominator_guards.1 20240101 "v" [] []⟩
  exact c4_zero_denominator_guards.2.1 20240101 "v" _ [] [] rfl

/-! ## C7 — checker vs aggregator gross revenue -/

/-- One order `A`, a `success` $10 payment and a `failed` $20 payment, both
matched to `A`. -/
def c7o : Frame OrderRow := ⟨orderCols, [mkORow (Value.str "A") (some 20240101) (some "v")]⟩

def c7p : Frame PaymentRow :=
  ⟨paymentCols, [mkPRow (Value.str "p1") (Value.str "A") 10 (Value.str "success"),
    mkPRow (Value.str "p2") (Value.str "A") 20 (Value.str "failed")]⟩

def c7r : Frame RefundRow := ⟨refundCols, []⟩

/-- C7: the checker's gross revenue sums only payments whose canonical
status is `"success"`, the aggregator's per-group gross revenue sums all
matched payments with no status filter, and the two genuinely diverge: on
an input with a matched `failed` payment the checker reports 10 while the
aggregate rows carry 30. -/
theorem c7_gross_revenue_divergence :
    (∀ o p r st rep, quality_report_stats o p r = .ok (st, rep) →
      rep.gross_revenue = pyRound (((p.rows.filter
        (fun x => decide (x.payment_status = Value.str "success"))).map
          (·.payment_amount)).sum) 2) ∧
    (∀ (d : ℚ) (v : String) (g : List OrderRow) (pays : List PaymentRow)
        (refs : List RefundRow),
      (aggRow d v g pays refs).gross_revenue =
        ((pays.filter (fun x => decide (x.order_id ∈ g.map (·.order_id)))).map
          (·.payment_amount)).sum) ∧
    (quality_report_stats c7o c7p c7r).map (fun x => x.2.gross_revenue) = .ok 10 ∧
    (build_fact_order_daily c7o c7p c7r).2.map (·.gross_revenue) = [30] ∧
    (∃ x ∈ c7p.rows, x.payment_status ≠ Value.str "success" ∧
      x.order_id ∈ c7o.rows.map (·.order_id)) ∧
    (10 : ℚ) ≠ 30 := by
  refine ⟨?_, ?_, ?_, ?_, ?_, by norm_num⟩
  · intro o p r st rep h
    unfold quality_report_stats at h
    split at h
    · cases h
      rfl
    · cases h
  · intro d v g pays refs
    rfl
  · unfold quality_report_stats
    rw [if_pos (by decide)]
    show Except.ok _ = _
    simp [c7p, mkPRow, pyRound, roundHalfEven]
    norm_num
  · unfold build_fact_order_daily
    rw [if_neg (by decide)]
    simp [aggKeys, aggGroup, aggRow, c7o, c7p, c7r, mkORow, mkPRow]
    norm_num
  · exact ⟨mkPRow (Value.str "p2") (Value.str "A") 20 (Value.str "failed"),
      by decide, by decide, by decide⟩

theorem c7_witness :
    ∀ st rep, quality_report_stats c7o c7p c7r = .ok (st, rep) →
      rep.gross_revenue = pyRound (((c7p.rows.filter
        (fun x => decide (x.payment_status = Value.str "success"))).map
          (·.payment_amount)).sum) 2 :=
  fun st rep h => c7_gross_revenue_divergence.1 c7o c7p c7r st rep h

/-! ## C9 — orders with null dates drop out of the aggregation -/

/-- The grouping keys ignore rows whose `created_at` is null, so filtering
those rows away leaves the key set unchanged. -/
theorem aggKeys_filter_dated (rows : List OrderRow) :
    aggKeys (rows.filter (fun row => decide (row.created_at ≠ Option.none))) = aggKeys rows := by
  unfold aggKeys
  congr 1
  simp only [ne_eq, decide_not]
  induction rows with
  | nil => rfl
  | cons a l ih =>
    cases ha : a.created_at with
    | none => simp [List.filter_cons, List.filterMap_cons, ha, ih]
    | some d =>
      cases hv : a.vendor with
      | none => simp [List.filter_cons, List.filterMap_cons, ha, hv, ih]
      | some v => simp [List.filter_cons, List.filterMap_cons, ha, hv, ih]

/-- Group membership requires a non-null date, so the same filter leaves
every group unchanged. -/
theorem aggGroup_filter_dated (rows : List OrderRow) (d : ℚ) (v : String) :
    aggGroup (rows.filter (fun row => decide (row.created_at ≠ Option.none))) d v =
      aggGroup rows d v := by
  unfold aggGroup
  rw [List.filter_filter]
  apply List.filter_congr
  intro x _
  by_cases hx : x.created_at = some d ∧ x.vendor = some v
  · simp [hx.1, hx.2]
  · simp [hx]

theorem aggKeys_nil_of_all_null (rows : List OrderRow)
    (h : ∀ row ∈ rows, row.created_at = Option.none) : aggKeys rows = [] := by
  unfold aggKeys
  have hfm : rows.filterMap (fun row =>
      match row.created_at, row.vendor with
      | some d, some v => some (d, v)
      | _, _ => Option.none) = [] := by
    induction rows with
    | nil => rfl
    | cons a l ih =>
      have ha : a.created_at = Option.none := h a (List.mem_cons_self _ _)
      simp only [List.filterMap_cons, ha]
      exact ih (fun row hrow => h row (List.mem_cons_of_mem _ hrow))
  rw [hfm]
  rfl

/-- C9: canonical orders whose `created_at` is null contribute nothing to
the daily aggregates — deleting them from the input changes no output row
— and if every order has a null date the aggregate output is empty. -/
theorem c9_null_dates_excluded :
    (∀ (o : Frame OrderRow) (p : Frame PaymentRow) (r : Frame RefundRow),
      (build_fact_order_daily o p r).2 =
        (build_fact_order_daily
          ⟨o.cols, o.rows.filter (fun row => decide (row.created_at ≠ Option.none))⟩ p r).2) ∧
    (∀ (o : Frame OrderRow) (p : Frame PaymentRow) (r : Frame RefundRow),
      (∀ row ∈ o.rows, row.created_at = Option.none) →
      (build_fact_order_daily o p r).2 = []) := by
  have hbody : ∀ (o : Frame OrderRow) (p : Frame PaymentRow) (r : Frame RefundRow),
      o.rows ≠ [] →
      (build_fact_order_daily o p r).2 = (aggKeys o.rows).map
        (fun dv => aggRow dv.1 dv.2 (aggGroup o.rows dv.1 dv.2) p.rows r.rows) := by
    intro o p r h
    rw [build_fact_order_daily, if_neg (by simp [List.isEmpty_iff, h])]
  have hallnull : ∀ (o : Frame OrderRow) (p : Frame PaymentRow) (r : Frame RefundRow),
      (∀ row ∈ o.rows, row.created_at = Option.none) →
      (build_fact_order_daily o p r).2 = [] := by
    intro o p r hall
    by_cases h1 : o.rows = []
    · rw [build_fact_order_daily, if_pos (by simp [List.isEmpty_iff, h1])]
    · rw [hbody o p r h1, aggKeys_nil_of_all_null o.rows hall]
      rfl
  refine ⟨?_, hallnull⟩
  intro o p r
  by_cases h1 : o.rows = []
  · rw [build_fact_order_daily, if_pos (by simp [List.isEmpty_iff, h1])]
    rw [build_fact_order_daily, if_pos (by simp [List.isEmpty_iff, h1])]
  · by_cases h2 : o.rows.filter (fun row => decide (row.created_at ≠ Option.none)) = []
    · have hall : ∀ row ∈ o.rows, row.created_at = Option.none := by
        intro row hrow
        by_contra hne
        have hmem : row ∈ o.rows.filter (fun row => decide (row.created_at ≠ Option.none)) :=
          List.mem_filter.mpr ⟨hrow, by simp [hne]⟩
        rw [h2] at hmem
        cases hmem
      rw [hallnull o p r hall]
      rw [build_fact_order_daily, if_pos (by simp only [List.isEmpty_iff]; exact h2)]
    · rw [hbody o p r h1,
        hbody ⟨o.cols, o.rows.filter (fun row => decide (row.created_at ≠ Option.none))⟩ p r h2]
      show _ = (aggKeys (o.rows.filter (fun row => decide (row.created_at ≠ Option.none)))).map _
      rw [aggKeys_filter_dated]
      apply List.map_congr_left
      intro dv _
      rw [aggGroup_filter_dated]

/-- An Orders frame whose single row has a null `created_at`. -/
def c9o : Frame OrderRow := ⟨orderCols, [mkORow (Value.str "A") Option.none (some "v")]⟩

theorem c9_witness :
    (∀ row ∈ c9o.rows, row.created_at = Option.none) ∧
    (build_fact_order_daily c9o ⟨paymentCols, []⟩ ⟨refundCols, []⟩).2 = [] := by
  refine ⟨by decide, ?_⟩
  exact c9_null_dates_excluded.2 c9o ⟨paymentCols, []⟩ ⟨refundCols, []⟩ (by decide)

/-! ## mapM over `Except`, element-wise -/

theorem exc_pure_bind {ε α β : Type} (a : α) (f : α → Except ε β) :
    ((pure a : Except ε α) >>= f) = f a := rfl

/-- `mapM` succeeds exactly when every element maps successfully, with the
results paired up in order. -/
theorem mapM_ok_forall2 {α β : Type} (f : α → Except String β) (l : List α) (ys : List β) :
    l.mapM f = .ok ys ↔ List.Forall₂ (fun a b => f a = .ok b) l ys := by
  rw [← List.mapM'_eq_mapM]
  induction l generalizing ys with
  | nil =>
    constructor
    · intro h
      cases h
      exact List.Forall₂.nil
    · intro h
      cases h
      rfl
  | cons a l ih =>
    rw [List.mapM']
    constructor
    · intro h
      cases hfa : f a with
      | error m =>
        rw [hfa, exc_error_bind] at h
        cases h
      | ok b =>
        rw [hfa, exc_ok_bind] at h
        cases hml : List.mapM' f l with
        | error m =>
          rw [hml, exc_error_bind] at h
          cases h
        | ok bs =>
          rw [hml, exc_ok_bind] at h
          cases h
          exact List.Forall₂.cons hfa ((ih bs).mp hml)
    · intro h
      cases h with
      | cons hfa htail =>
        rename_i b bs
        rw [hfa, exc_ok_bind, (ih bs).mpr htail, exc_ok_bind]
        rfl

/-- A `Forall₂` pairing sends members of the left list to related members
of the right list. -/
theorem forall2_mem_left {α β : Type} {R : α → β → Prop} {l : List α} {ys : List β}
    (h : List.Forall₂ R l ys) {x : α} (hx : x ∈ l) : ∃ y ∈ ys, R x y := by
  induction h with
  | nil => cases hx
  | cons hr htail ih =>
    rcases List.mem_cons.mp hx with rfl | hx'
    · exact ⟨_, List.mem_cons_self _ _, hr⟩
    · obtain ⟨y, hy, hxy⟩ := ih hx'
      exact ⟨y, List.mem_cons_of_mem _ hy, hxy⟩

/-! ## C5 — orders deduplication keeps the latest-dated row per order id -/

/-- C5: deduplication of the canonical Orders table keeps exactly one row
per occurring `order_id` — the kept row is maximal in the
nulls-first `created_at` order over every row built from the input — and
in the two-event null-versus-dated scenario the dated row wins regardless
of input order. -/
theorem c5_orders_dedup :
    (∀ (events : List RawEvent) (frame : Frame OrderRow),
      normalize_orders events = .ok frame →
      ((frame.rows.map (·.order_id)).Nodup ∧
        (∀ e ∈ events, ∀ re, mkOrderRow e = .ok re →
          ∃ w ∈ frame.rows, w.order_id = re.order_id) ∧
        (∀ w ∈ frame.rows, ∀ e ∈ events, ∀ re, mkOrderRow e = .ok re →
          re.order_id = w.order_id → dleb re.created_at w.created_at = true))) ∧
    (∀ (e1 e2 : RawEvent) (r1 r2 : OrderRow) (d : ℚ),
      mkOrderRow e1 = .ok r1 → mkOrderRow e2 = .ok r2 →
      r1.order_id = r2.order_id → r1.created_at = Option.none →
      r2.created_at = some d →
      (normalize_orders [e1, e2]).map (·.rows) = .ok [r2] ∧
      (normalize_orders [e2, e1]).map (·.rows) = .ok [r2]) := by
  constructor
  · intro events frame hn
    by_cases h : events = []
    · subst h
      rw [normalize_orders] at hn
      cases hn
      refine ⟨List.Pairwise.nil, ?_, ?_⟩ <;> simp
    · unfold normalize_orders at hn
      rw [if_neg (by simp [List.isEmpty_iff, h])] at hn
      cases hm : events.mapM mkOrderRow with
      | error m =>
        rw [hm, exc_error_bind] at hn
        cases hn
      | ok rows =>
        rw [hm, exc_ok_bind] at hn
        cases hn
        dsimp only
        have hf2 := (mapM_ok_forall2 mkOrderRow events rows).mp hm
        refine ⟨?_, ?_, ?_⟩
        · exact List.pairwise_map.mpr (keepLastBy_pairwise_keys (fun x : OrderRow => x.order_id))
        · intro e he re hre
          obtain ⟨y, hy, hxy⟩ := forall2_mem_left hf2 he
          rw [hre] at hxy
          cases hxy
          have hnn : ¬ winnerW (·.order_id) ordLE re.order_id rows = Option.none := by
            rw [winnerW_eq_none_iff]
            push_neg
            exact ⟨re, hy, rfl⟩
          obtain ⟨w, hw⟩ := Option.ne_none_iff_exists'.mp hnn
          have hws := winnerW_some (·.order_id) ordLE re.order_id hw
          have hkw : w.order_id = re.order_id := hws.2
          refine ⟨w, ?_, hkw⟩
          rw [mem_keepLastBy_insertionSort]
          show winnerW (fun x : OrderRow => x.order_id) ordLE w.order_id rows = some w
          rw [hkw]
          exact hw
        · intro w hwmem e he re hre hid
          obtain ⟨y, hy, hxy⟩ := forall2_mem_left hf2 he
          rw [hre] at hxy
          cases hxy
          have hwin := (mem_keepLastBy_insertionSort (·.order_id) ordLE).mp hwmem
          exact winnerW_max (·.order_id) ordLE hwin re hy hid
  · intro e1 e2 r1 r2 d h1 h2 hid hn1 hd2
    have hmap12 : [e1, e2].mapM mkOrderRow = .ok [r1, r2] := by
      rw [← List.mapM'_eq_mapM]
      rw [List.mapM', h1, exc_ok_bind, List.mapM', h2, exc_ok_bind, List.mapM']
      rfl
    have hmap21 : [e2, e1].mapM mkOrderRow = .ok [r2, r1] := by
      rw [← List.mapM'_eq_mapM]
      rw [List.mapM', h2, exc_ok_bind, List.mapM', h1, exc_ok_bind, List.mapM']
      rfl
    have hle12 : ordLE r1 r2 := by
      show dleb r1.created_at r2.created_at = true
      rw [hn1]
      rfl
    have hnle21 : ¬ ordLE r2 r1 := by
      show ¬ dleb r2.created_at r1.created_at = true
      rw [hd2, hn1]
      simp [dleb]
    have hsort12 : List.insertionSort ordLE [r1, r2] = [r1, r2] := by
      show List.orderedInsert ordLE r1 (List.orderedInsert ordLE r2 []) = [r1, r2]
      rw [List.orderedInsert_nil, List.orderedInsert, if_pos hle12]
    have hsort21 : List.insertionSort ordLE [r2, r1] = [r1, r2] := by
      show List.orderedInsert ordLE r2 (List.orderedInsert ordLE r1 []) = [r1, r2]
      rw [List.orderedInsert_nil, List.orderedInsert, if_neg hnle21, List.orderedInsert_nil]
    have hkeep : keepLastBy (·.order_id) [r1, r2] = [r2] := by
      have hany : [r2].any (fun y => decide (y.order_id = r1.order_id)) = true := by
        simp [hid]
      rw [keepLastBy, if_pos hany]
      rfl
    constructor
    · unfold normalize_orders
      rw [if_neg (by simp [List.isEmpty_iff]), hmap12, exc_ok_bind]
      rw [hsort12, hkeep]
      rfl
    · unfold normalize_orders
      rw [if_neg (by simp [List.isEmpty_iff]), hmap21, exc_ok_bind]
      rw [hsort21, hkeep]
      rfl

/-- A null-dated and a dated event for the same order id. -/
def c5evNull : RawEvent :=
  { event_id := some "ev-null", event_type := some "order_created", vendor := some "v",
    payload := [("order_id", Value.str "X"), ("totalAmount", Value.num 7)] }

def c5evDated : RawEvent :=
  { event_id := some "ev-dated", event_type := some "order_updated", vendor := some "v",
    payload := [("order_id", Value.str "X"), ("totalAmount", Value.num 9),
      ("created_at", Value.str "2024-01-01")] }

/-- The canonical rows for the two C5 events. -/
def c5rowNull : OrderRow :=
  { order_id := Value.str "X", customer_id := Value.none, order_amount := 7,
    order_status := Value.none, created_at := Option.none, event_id := some "ev-null",
    vendor := some "v", event_type := some "order_created" }

def c5rowDated : OrderRow :=
  { order_id := Value.str "X", customer_id := Value.none, order_amount := 9,
    order_status := Value.none, created_at := some 20240101, event_id := some "ev-dated",
    vendor := some "v", event_type := some "order_updated" }

theorem c5_witness :
    mkOrderRow c5evNull = .ok c5rowNull ∧ mkOrderRow c5evDated = .ok c5rowDated ∧
    (normalize_orders [c5evNull, c5evDated]).map (·.rows) = .ok [c5rowDated] ∧
    (normalize_orders [c5evDated, c5evNull]).map (·.rows) = .ok [c5rowDated] := by
  refine ⟨by decide, by decide, ?_, ?_⟩
  · exact (c5_orders_dedup.2 c5evNull c5evDated c5rowNull c5rowDated 20240101
      (by decide) (by decide) (by decide) (by decide) (by decide)).1
  · exact (c5_orders_dedup.2 c5evNull c5evDated c5rowNull c5rowDated 20240101
      (by decide) (by decide) (by decide) (by decide) (by decide)).2

/-! ## C8 — dedup idempotence on duplicated input -/

/-- C8: feeding any event sequence twice yields the same canonical content
as feeding it once: for Payments and Refunds the result is identical
(first-seen row per key wins), and for Orders the kept rows are the same
up to permutation (latest-dated row per key wins). -/
theorem c8_dedup_idempotence :
    (∀ es, normalize_payments (es ++ es) = normalize_payments es) ∧
    (∀ es, normalize_refunds (es ++ es) = normalize_refunds es) ∧
    (∀ es f g, normalize_orders (es ++ es) = .ok g → normalize_orders es = .ok f →
      g.cols = f.cols ∧ g.rows.Perm f.rows) := by
  refine ⟨?_, ?_, ?_⟩
  · intro es
    by_cases h : es = []
    · subst h
      rfl
    · unfold normalize_payments
      rw [if_neg (by simp [List.isEmpty_iff, h]), if_neg (by simp [List.isEmpty_iff, h])]
      rw [List.mapM_append]
      cases hm : es.mapM mkPaymentRow with
      | error m => simp only [hm, exc_error_bind]
      | ok rows =>
        simp only [hm, exc_ok_bind, exc_pure_bind]
        rw [keepFirstBy_self_append]
  · intro es
    by_cases h : es = []
    · subst h
      rfl
    · unfold normalize_refunds
      rw [if_neg (by simp [List.isEmpty_iff, h]), if_neg (by simp [List.isEmpty_iff, h])]
      rw [List.mapM_append]
      cases hm : es.mapM mkRefundRow with
      | error m => simp only [hm, exc_error_bind]
      | ok rows =>
        simp only [hm, exc_ok_bind, exc_pure_bind]
        rw [keepFirstBy_self_append]
  · intro es f g hg hf
    by_cases h : es = []
    · subst h
      rw [normalize_orders] at hg hf
      cases hg
      cases hf
      exact ⟨rfl, List.Perm.refl _⟩
    · unfold normalize_orders at hg hf
      rw [if_neg (by simp [List.isEmpty_iff, h])] at hf
      rw [if_neg (by simp [List.isEmpty_iff, h])] at hg
      cases hm : es.mapM mkOrderRow with
      | error m =>
        rw [hm, exc_error_bind] at hf
        cases hf
      | ok rows =>
        rw [hm, exc_ok_bind] at hf
        rw [List.mapM_append, hm] at hg
        simp only [exc_ok_bind, exc_pure_bind] at hg
        cases hf
        cases hg
        refine ⟨rfl, ?_⟩
        dsimp only
        apply (List.perm_ext_iff_of_nodup
          (keepLastBy_nodup (fun x : OrderRow => x.order_id))
          (keepLastBy_nodup (fun x : OrderRow => x.order_id))).mpr
        intro a
        rw [mem_keepLastBy_insertionSort (fun x : OrderRow => x.order_id) ordLE,
          mem_keepLastBy_insertionSort (fun x : OrderRow => x.order_id) ordLE,
          winnerW_self_append (fun x : OrderRow => x.order_id) ordLE]

theorem c8_witness :
    normalize_orders [c5evNull, c5evDated, c5evNull, c5evDated] =
      .ok ⟨orderCols, [c5rowDated]⟩ ∧
    normalize_orders [c5evNull, c5evDated] = .ok ⟨orderCols, [c5rowDated]⟩ ∧
    orderCols = orderCols ∧ [c5rowDated].Perm [c5rowDated] := by
  refine ⟨by decide, by decide, ?_, ?_⟩
  · exact (c8_dedup_idempotence.2.2 [c5evNull, c5evDated] ⟨orderCols, [c5rowDated]⟩
      ⟨orderCols, [c5rowDated]⟩ (by decide) (by decide)).1
  · exact (c8_dedup_idempotence.2.2 [c5evNull, c5evDated] ⟨orderCols, [c5rowDated]⟩
      ⟨orderCols, [c5rowDated]⟩ (by decide) (by decide)).2

/-! ## C1 — the Daily Aggregator -/

/-- The aggregate rows of a non-empty Orders frame: one `aggRow` per
grouping key. -/
theorem build_fact_rows (o : Frame OrderRow) (p : Frame PaymentRow) (r : Frame RefundRow)
    (h : o.rows ≠ []) :
    (build_fact_order_daily o p r).2 = (aggKeys o.rows).map
      (fun dv => aggRow dv.1 dv.2 (aggGroup o.rows dv.1 dv.2) p.rows r.rows) := by
  rw [build_fact_order_daily, if_neg (by simp [List.isEmpty_iff, h])]

/-- A pair is a grouping key exactly when some order row carries it. -/
theorem mem_aggKeys_iff (rows : List OrderRow) (d : ℚ) (v : String) :
    (d, v) ∈ aggKeys rows ↔
      ∃ row ∈ rows, row.created_at = some d ∧ row.vendor = some v := by
  unfold aggKeys
  rw [List.mem_dedup, List.mem_filterMap]
  constructor
  · rintro ⟨row, hrow, hmatch⟩
    cases hc : row.created_at with
    | none => rw [hc] at hmatch; cases hmatch
    | some d' =>
      cases hv : row.vendor with
      | none => rw [hc, hv] at hmatch; cases hmatch
      | some v' =>
        rw [hc, hv] at hmatch
        dsimp only at hmatch
        cases hmatch
        exact ⟨row, hrow, hc, hv⟩
  · rintro ⟨row, hrow, hd, hv⟩
    exact ⟨row, hrow, by rw [hd, hv]⟩

/-- Orders `A`, `B` on 2024-01-01 for `vendorX`; a success $10 payment for
`A`, a failed $20 payment for `B`; a $3 refund for `A` — the spec's worked
aggregator example. -/
def exO : Frame OrderRow :=
  ⟨orderCols, [mkORow (Value.str "A") (some 20240101) (some "vendorX"),
    mkORow (Value.str "B") (some 20240101) (some "vendorX")]⟩

def exP : Frame PaymentRow :=
  ⟨paymentCols, [mkPRow (Value.str "p1") (Value.str "A") 10 (Value.str "success"),
    mkPRow (Value.str "p2") (Value.str "B") 20 (Value.str "failed")]⟩

def exR : Frame RefundRow := ⟨refundCols, [mkRRow (Value.str "r1") (Value.str "A") 3]⟩

/-- Three orders sharing one key, one success $10 payment: the success
rate is 1/3, which the code rounds. -/
def c1o : Frame OrderRow :=
  ⟨orderCols, [mkORow (Value.str "A") (some 20240101) (some "vX"),
    mkORow (Value.str "B") (some 20240101) (some "vX"),
    mkORow (Value.str "C") (some 20240101) (some "vX")]⟩

def c1p : Frame PaymentRow :=
  ⟨paymentCols, [mkPRow (Value.str "p1") (Value.str "A") 10 (Value.str "success")]⟩

/-- No payments at all but a $3 refund for `A`: gross revenue 0 with a
non-zero refund total. -/
def c1rf : Frame RefundRow := ⟨refundCols, [mkRRow (Value.str "r1") (Value.str "A") 3]⟩

/-- C1 counterexample: the claim's `payment_success_rate = paid_count /
order_count` and `refund_rate = total_refunds / gross_revenue` are not
what the code computes.  With three orders and one successful payment the
code emits `round(1/3, 4) = 0.3333 ≠ 1/3`; and with zero gross revenue it
emits a null refund rate, not the claimed quotient. -/
theorem c1_counterexample :
    (build_fact_order_daily c1o c1p ⟨refundCols, []⟩).2.map (·.payment_success_rate) =
      [some (3333 / 10000)] ∧
    (3333 / 10000 : ℚ) ≠ 1 / 3 ∧
    (build_fact_order_daily c1o ⟨paymentCols, []⟩ c1rf).2.map (·.refund_rate) =
      [Option.none] ∧
    (Option.none : Option ℚ) ≠ some ((3 : ℚ) / 0) := by
  refine ⟨?_, by norm_num, ?_, fun h => Option.noConfusion h⟩
  · rw [build_fact_rows _ _ _ (by decide)]
    simp [aggKeys, aggGroup, aggRow, c1o, c1p, mkORow, mkPRow]
    have h33 : ⌊(3 : ℚ)⁻¹ * 10 ^ 4⌋ = 3333 := by
      rw [Int.floor_eq_iff]
      norm_num
    simp only [pyRound, roundHalfEven, h33]
    norm_num
  · rw [build_fact_rows _ _ _ (by decide)]
    simp [aggKeys, aggGroup, aggRow, c1o, c1rf, mkORow, mkRRow]

/-- C1 amended: for a non-empty Orders table the aggregator emits exactly
one row per present `(calendar date of created_at, vendor)` key, each row
given by `aggRow` over its group; per group the metrics are the claimed
sums and counts (gross revenue over *all* matched payments, success count,
refund sum, net revenue, group size), while the rates are the claimed
quotients *rounded half-even to four decimal places* and guarded to null
on zero denominators; the spec's concrete example evaluates exactly as
claimed. -/
theorem c1_daily_aggregation :
    (∀ (o : Frame OrderRow) (p : Frame PaymentRow) (r : Frame RefundRow),
      o.rows ≠ [] →
      ((∀ (d : ℚ) (v : String),
          (∃ row ∈ o.rows, row.created_at = some d ∧ row.vendor = some v) ↔
          ∃ row ∈ (build_fact_order_daily o p r).2, row.order_date = d ∧ row.vendor = v) ∧
        ((build_fact_order_daily o p r).2.map (fun row => (row.order_date, row.vendor))).Nodup ∧
        ∀ row ∈ (build_fact_order_daily o p r).2,
          row = aggRow row.order_date row.vendor
            (aggGroup o.rows row.order_date row.vendor) p.rows r.rows)) ∧
    (∀ (d : ℚ) (v : String) (g : List OrderRow) (pays : List PaymentRow)
        (refs : List RefundRow),
      (aggRow d v g pays refs).gross_revenue =
        ((pays.filter (fun x => decide (x.order_id ∈ g.map (·.order_id)))).map
          (·.payment_amount)).sum ∧
      (aggRow d v g pays refs).paid_count =
        (pays.filter (fun x => decide (x.order_id ∈ g.map (·.order_id)))).countP
          (fun x => decide (x.payment_status = Value.str "success")) ∧
      (aggRow d v g pays refs).total_refunds =
        ((refs.filter (fun x => decide (x.order_id ∈ g.map (·.order_id)))).map
          (·.refund_amount)).sum ∧
      (aggRow d v g pays refs).net_revenue =
        (aggRow d v g pays refs).gross_revenue - (aggRow d v g pays refs).total_refunds ∧
      (aggRow d v g pays refs).order_count = g.length ∧
      (aggRow d v g pays refs).payment_success_rate =
        (if 0 < g.length then
          some (pyRound (((aggRow d v g pays refs).paid_count : ℚ) / (g.length : ℚ)) 4)
        else Option.none) ∧
      (aggRow d v g pays refs).refund_rate =
        (if 0 < (aggRow d v g pays refs).gross_revenue then
          some (pyRound ((aggRow d v g pays refs).total_refunds /
            (aggRow d v g pays refs).gross_revenue) 4)
        else Option.none)) ∧
    (build_fact_order_daily exO exP exR).2 =
      [{ order_date := 20240101, vendor := "vendorX", gross_revenue := 30, total_refunds := 3,
         net_revenue := 27, order_count := 2, paid_count := 1,
         payment_success_rate := some (1 / 2), refund_rate := some (1 / 10) }] := by
  refine ⟨?_, ?_, ?_⟩
  · intro o p r h
    refine ⟨?_, ?_, ?_⟩
    · intro d v
      rw [build_fact_rows o p r h]
      constructor
      · intro hex
        refine ⟨aggRow d v (aggGroup o.rows d v) p.rows r.rows, ?_, rfl, rfl⟩
        exact List.mem_map.mpr ⟨(d, v), (mem_aggKeys_iff o.rows d v).mpr hex, rfl⟩
      · rintro ⟨row, hrow, hd, hv⟩
        obtain ⟨dv, hdv, rfl⟩ := List.mem_map.mp hrow
        obtain ⟨d0, v0⟩ := dv
        have hd1 : d0 = d := hd
        have hv1 : v0 = v := hv
        rw [← hd1, ← hv1]
        exact (mem_aggKeys_iff o.rows d0 v0).mp hdv
    · rw [build_fact_rows o p r h, List.map_map]
      have heq : ((fun row : DailyRow => (row.order_date, row.vendor)) ∘
          (fun dv => aggRow dv.1 dv.2 (aggGroup o.rows dv.1 dv.2) p.rows r.rows)) =
          @id (ℚ × String) := by
        funext dv
        rfl
      rw [heq, List.map_id]
      exact List.nodup_dedup _
    · intro row hrow
      rw [build_fact_rows o p r h] at hrow
      obtain ⟨dv, _, rfl⟩ := List.mem_map.mp hrow
      rfl
  · intro d v g pays refs
    refine ⟨rfl, rfl, rfl, rfl, ?_, ?_, rfl⟩
    · simp [aggRow]
    · simp [aggRow]
  · rw [build_fact_rows _ _ _ (by decide)]
    simp [aggKeys, aggGroup, aggRow, exO, exP, exR, mkORow, mkPRow, mkRRow,
      pyRound, roundHalfEven]
    norm_num

theorem c1_witness :
    exO.rows ≠ [] ∧
    ((∃ row ∈ exO.rows, row.created_at = some 20240101 ∧ row.vendor = some "vendorX") ↔
      ∃ row ∈ (build_fact_order_daily exO exP exR).2,
        row.order_date = 20240101 ∧ row.vendor = "vendorX") :=
  ⟨by decide, (c1_daily_aggregation.1 exO exP exR (by decide)).1 20240101 "vendorX"⟩
